import Mathlib

/-!
Verification development for the metadata cache and synchronization engine of
the albus-status-bar-music repository.

The definitions below are a shallow embedding of the TypeScript sources
`src/services/MetadataParser.ts` and `src/services/MetadataManager.ts`.
JavaScript runtime behaviour relevant to the code paths is made explicit:
truthiness tests become Boolean predicates, `x || y` becomes an explicit
fallback, `undefined`/`null` become `Option.none` (the two are conflated,
matching how the sources use them), asynchronous completion is modelled by
explicit event times, and exceptions are modelled with `Except`.
-/

namespace AlbusMusic

/-- Modelled from the spec: the `TrackMetadata` type is declared in
`src/types.ts`, which is not among the provided sources.  Spec section 3 fixes
the Record shape: `{title: text, artist: text, album: text,
cover: resource-handle|null, lyrics: text|null}`. -/
structure TrackMetadata where
  title : String
  artist : String
  album : String
  cover : Option String
  lyrics : Option String
deriving Repr, DecidableEq

/-- Modelled from the spec: `DEFAULT_METADATA` is declared in
`src/utils/constants.ts`, which is not among the provided sources.  Spec
section 4.1 fixes it as
`title="Unknown Title", artist="Unknown Artist", album="Unknown Album",
cover=null, lyrics=null`. -/
def DEFAULT_METADATA : TrackMetadata :=
  { title := "Unknown Title"
    artist := "Unknown Artist"
    album := "Unknown Album"
    cover := none
    lyrics := none }

/-! ## JavaScript string primitives

Structurally recursive character-list implementations of the JavaScript
string operations the sources use (`trim`, `toLowerCase`, `includes`,
`startsWith`-style prefix tests, suffix tests, `join`, `split('/').pop()`),
so that concrete instances evaluate inside the kernel. -/

/-- Is `p` a character-wise prefix of `s`? -/
def prefixChars : List Char → List Char → Bool
  | [], _ => true
  | _ :: _, [] => false
  | c :: cs, d :: ds => c = d && prefixChars cs ds

/-- Does `s` contain `sub` as a contiguous substring
(JavaScript `s.includes(sub)`)? -/
def hasSub : List Char → List Char → Bool
  | [], sub => sub.isEmpty
  | c :: rest, sub => prefixChars sub (c :: rest) || hasSub rest sub

/-- JavaScript `s.includes(sub)`. -/
def jsIncludes (s sub : String) : Bool :=
  hasSub s.data sub.data

/-- JavaScript `s.trim()`: strip leading and trailing whitespace. -/
def jsTrim (s : String) : String :=
  ⟨((s.data.dropWhile Char.isWhitespace).reverse.dropWhile Char.isWhitespace).reverse⟩

/-- JavaScript `s.toLowerCase()` (ASCII, which is all the sources compare). -/
def jsToLower (s : String) : String :=
  ⟨s.data.map Char.toLower⟩

/-- JavaScript `s.startsWith(p)`. -/
def jsStartsWith (s p : String) : Bool :=
  prefixChars p.data s.data

/-- JavaScript `s.endsWith(p)`. -/
def jsEndsWith (s p : String) : Bool :=
  prefixChars p.data.reverse s.data.reverse

/-- JavaScript `parts.join(sep)` on already-coerced strings. -/
def jsJoin (sep : String) : List String → String
  | [] => ""
  | [x] => x
  | x :: y :: rest => x ++ sep ++ jsJoin sep (y :: rest)

/-- The characters of `s` after its last `'/'`
(JavaScript `s.split('/').pop() || ''`). -/
def lastSegmentAux : List Char → List Char → List Char
  | [], acc => acc
  | c :: rest, acc =>
      if c = '/' then lastSegmentAux rest [] else lastSegmentAux rest (acc ++ [c])

/-- JavaScript `a || b` for a possibly absent string falling back to a string
(`""` is falsy). -/
def jsOrStr (o : Option String) (dflt : String) : String :=
  match o with
  | some s => if s = "" then dflt else s
  | none => dflt

/-- JavaScript `a || b` where both sides are string-or-nullish
(`""` is falsy, `null`/`undefined` are falsy). -/
def jsOrOpt (a b : Option String) : Option String :=
  match a with
  | some s => if s = "" then b else some s
  | none => b

/-- JavaScript `a || null` for a string-or-nullish value (`""` becomes null). -/
def jsOrNull (o : Option String) : Option String :=
  match o with
  | some s => if s = "" then none else some s
  | none => none

/-! ## Tag values

The underlying decoding library (music-metadata) hands `MetadataParser` duck
typed tag values.  The shapes actually inspected by the source
(`extractLyricsText`, the TXXX description test, the common-lyrics loop) are:
nullish values, strings, arrays, and objects with the optional properties
`text`, `descriptor`, `lyrics` (an array of timed lines) and `description`
(a string).  `TagValue.null` conflates JavaScript `null` and `undefined`. -/

inductive TagValue where
  | null : TagValue
  | str (s : String) : TagValue
  | arr (items : List TagValue) : TagValue
  | obj (text : Option TagValue) (descriptor : Option TagValue)
        (lyrics : Option (List TagValue)) (description : Option String) : TagValue
deriving Repr

/-- JavaScript truthiness for the tag values that occur here
(`null`/`undefined` and `""` are falsy, arrays and objects are truthy). -/
def jsTruthy : TagValue → Bool
  | TagValue.null => false
  | TagValue.str s => s ≠ ""
  | TagValue.arr _ => true
  | TagValue.obj _ _ _ _ => true

/-- Truthiness of a string-or-null result (`""` and `null` are falsy). -/
def truthyOpt : Option String → Bool
  | some s => s ≠ ""
  | none => false

/-- `if (x) return x;` on a string-or-null result: keep only truthy values. -/
def truthyFilter (o : Option String) : Option String :=
  if truthyOpt o then o else none

mutual

/-- JavaScript `String(...)` coercion as performed by `Array.prototype.join`
on the filtered SYLT line values (already non-null there; the `null` case is
the empty string `join` uses for nullish entries). -/
def jsToString : TagValue → String
  | TagValue.null => ""
  | TagValue.str s => s
  | TagValue.arr items => jsJoin "," (jsToStringList items)
  | TagValue.obj _ _ _ _ => "[object Object]"

/-- `jsToString` mapped over a list (JavaScript array `toString`). -/
def jsToStringList : List TagValue → List String
  | [] => []
  | v :: vs => jsToString v :: jsToStringList vs

end

/-- JavaScript `line !== null` on a mapped SYLT line value. -/
def notNull : TagValue → Bool
  | TagValue.null => false
  | _ => true

/-- One line of a SYLT `lyrics` array, per the `.map` callback in
`extractLyricsText`: a string line is kept as is; an object line with a
`text` property yields that raw property value; everything else yields
JavaScript `null`. -/
def syltLineText : TagValue → Option TagValue
  | TagValue.str s => some (TagValue.str s)
  | TagValue.obj (some t) _ _ _ => some t
  | _ => none

/-- The SYLT branch of `extractLyricsText`: map lines to their texts, filter
out nulls, and join the remaining lines with newlines (timestamps dropped);
an empty line list yields null. -/
def syltJoin : Option (List TagValue) → Option String
  | some lines0 =>
      let lines := (lines0.filterMap syltLineText).filter notNull
      if lines.isEmpty then none
      else some (jsJoin "\n" (lines.map jsToString))
  | none => none

mutual

/-- `MetadataParser.extractLyricsText`: recursive normalization of a duck
typed lyrics value.  Falsy values yield null; a string is trimmed (empty
becomes null); an array yields its first element producing truthy text; an
object is probed for `text` (recursing, kept only if truthy), then
`descriptor` (recursing, returned unconditionally), then a SYLT-style
`lyrics` array. -/
def extractLyricsText : TagValue → Option String
  | TagValue.null => none
  | TagValue.str s =>
      if s = "" then none
      else if jsTrim s = "" then none else some (jsTrim s)
  | TagValue.arr items => extractLyricsTextItems items
  | TagValue.obj text descriptor lyrics _ =>
      let fromText : Option String :=
        match text with
        | some t => if jsTruthy t then extractLyricsText t else none
        | none => none
      if truthyOpt fromText then fromText
      else
        match descriptor with
        | some d => if jsTruthy d then extractLyricsText d else syltJoin lyrics
        | none => syltJoin lyrics

/-- The array loop of `extractLyricsText`: first item whose recursive
extraction is truthy. -/
def extractLyricsTextItems : List TagValue → Option String
  | [] => none
  | v :: vs =>
      match extractLyricsText v with
      | some s => if s = "" then extractLyricsTextItems vs else some s
      | none => extractLyricsTextItems vs

end

/-! ## The decoded audio metadata handed to the parser -/

/-- One embedded picture (`mm.IPicture`). -/
structure Picture where
  data : List Nat
  format : String
deriving Repr, DecidableEq

/-- One native tag (`{id, value}`) of a tag container. -/
structure NativeTag where
  id : String
  value : TagValue
deriving Repr

/-- The parts of `mm.IAudioMetadata` that `MetadataParser` reads.  Absent
containers (`metadata.native?.id3v2` and friends) are `none`. -/
structure AudioMetadata where
  common_title : Option String
  common_artist : Option String
  common_album : Option String
  common_lyrics : Option (List TagValue)
  common_picture : Option (List Picture)
  native_id3v2 : Option (List NativeTag)
  native_vorbis : Option (List NativeTag)
  native_apev2 : Option (List NativeTag)
  native_iTunes : Option (List NativeTag)
  native_mp4 : Option (List NativeTag)
  native_asf : Option (List NativeTag)
deriving Repr

/-- First non-null entry of a list of string-or-null candidates. -/
def firstSome : List (Option String) → Option String
  | [] => none
  | some s :: _ => some s
  | none :: rest => firstSome rest

/-- One entry of the `common.lyrics` loop in `extractLyrics`: a truthy string
with truthy trim yields its trim; an object whose `text` property is a truthy
string with truthy trim yields that trim; anything else is skipped. -/
def commonLyricEntryText : TagValue → Option String
  | TagValue.str s => if s ≠ "" ∧ jsTrim s ≠ "" then some (jsTrim s) else none
  | TagValue.obj (some (TagValue.str t)) _ _ _ =>
      if t ≠ "" ∧ jsTrim t ≠ "" then some (jsTrim t) else none
  | _ => none

/-- Step 1 of `extractLyrics`: the normalized `common.lyrics` field. -/
def commonLyricsStep (md : AudioMetadata) : Option String :=
  match md.common_lyrics with
  | some entries => firstSome (entries.map commonLyricEntryText)
  | none => none

/-- The shared shape of the simple tag-container steps of `extractLyrics`:
find the first tag satisfying the predicate; if its value is truthy, run
`extractLyricsText` and keep only a truthy result. -/
def tagStep (tags : Option (List NativeTag)) (p : NativeTag → Bool) : Option String :=
  match tags with
  | some ts =>
      match ts.find? p with
      | some tag =>
          if jsTruthy tag.value then truthyFilter (extractLyricsText tag.value)
          else none
      | none => none
  | none => none

/-- Step 2 of `extractLyrics`: the ID3v2 USLT frame. -/
def usltStep (md : AudioMetadata) : Option String :=
  tagStep md.native_id3v2 (fun t => t.id = "USLT")

/-- Step 3 of `extractLyrics`: the ID3v2 SYLT frame. -/
def syltStep (md : AudioMetadata) : Option String :=
  tagStep md.native_id3v2 (fun t => t.id = "SYLT")

/-- The TXXX frame selection test: the frame's value carries a `description`
string whose lower-casing contains "lyric". -/
def txxxDescrMatches : TagValue → Bool
  | TagValue.obj _ _ _ (some d) => jsIncludes (jsToLower d) "lyric"
  | _ => false

/-- Step 4 of `extractLyrics`: the first ID3v2 TXXX frame whose description
contains "lyric" case-insensitively; its `text` property (if truthy) is
normalized and kept only if truthy. -/
def txxxStep (md : AudioMetadata) : Option String :=
  match md.native_id3v2 with
  | some ts =>
      match ts.find? (fun t => t.id = "TXXX" ∧ txxxDescrMatches t.value) with
      | some tag =>
          if jsTruthy tag.value then
            match tag.value with
            | TagValue.obj (some txt) _ _ _ =>
                if jsTruthy txt then truthyFilter (extractLyricsText txt) else none
            | _ => none
          else none
      | none => none
  | none => none

/-- Step 5 of `extractLyrics`: the Vorbis comment lyrics keys. -/
def vorbisStep (md : AudioMetadata) : Option String :=
  tagStep md.native_vorbis
    (fun t => t.id = "LYRICS" ∨ t.id = "UNSYNCEDLYRICS" ∨ t.id = "lyrics" ∨ t.id = "UNSYNCED LYRICS")

/-- Step 6 of `extractLyrics`: the APEv2 lyrics keys. -/
def apev2Step (md : AudioMetadata) : Option String :=
  tagStep md.native_apev2
    (fun t => t.id = "Lyrics" ∨ t.id = "LYRICS" ∨ t.id = "UNSYNCED LYRICS")

/-- Step 7 of `extractLyrics`: the iTunes/MP4 lyrics atoms
(`native["iTunes"] || native["mp4"]`; a present-but-empty iTunes container
still shadows mp4, since arrays are truthy). -/
def itunesStep (md : AudioMetadata) : Option String :=
  tagStep
    (match md.native_iTunes with
     | some l => some l
     | none => md.native_mp4)
    (fun t => t.id = "©lyr" ∨ t.id = "----:com.apple.iTunes:LYRICS")

/-- Step 8 of `extractLyrics`: the ASF/WMA lyrics attributes. -/
def asfStep (md : AudioMetadata) : Option String :=
  tagStep md.native_asf
    (fun t => t.id = "WM/Lyrics" ∨ t.id = "WM/Lyrics_Synchronised")

/-- `MetadataParser.extractLyrics`: the embedded-tag fallback chain, first
truthy result wins; the surrounding try/catch (which can only yield null) is
modelled by totality. -/
def extractLyrics (md : AudioMetadata) : Option String :=
  match commonLyricsStep md with
  | some s => some s
  | none =>
  match usltStep md with
  | some s => some s
  | none =>
  match syltStep md with
  | some s => some s
  | none =>
  match txxxStep md with
  | some s => some s
  | none =>
  match vorbisStep md with
  | some s => some s
  | none =>
  match apev2Step md with
  | some s => some s
  | none =>
  match itunesStep md with
  | some s => some s
  | none => asfStep md

/-- `MetadataParser.extractCover`: the first picture of the list (source
order, no preference) becomes a fresh blob URL; no or empty picture list
yields null.  `URL.createObjectURL` is a runtime primitive, passed in as
`urlOf`; the internal `blobUrls` registry only matters for `cleanup`, which
no claim touches. -/
def extractCover (urlOf : Picture → String) : Option (List Picture) → Option String
  | none => none
  | some [] => none
  | some (p :: _) => some (urlOf p)

/-- `MetadataParser.extractMetadata`: decode the buffer (outcome of
`mm.parseBuffer` passed as `parsed`), resolve lyrics as
`lyricsFromLrcFile || extractLyrics(metadata)`, fall back to the inline
placeholder strings for missing common fields; any decode error is caught and
yields a copy of `DEFAULT_METADATA` — the function is total, nothing is
raised to the caller. -/
def extractMetadata (urlOf : Picture → String) (parsed : Except Unit AudioMetadata)
    (lyricsFromLrcFile : Option String) : TrackMetadata :=
  match parsed with
  | Except.error _ => DEFAULT_METADATA
  | Except.ok md =>
      { title := jsOrStr md.common_title "未知标题"
        artist := jsOrStr md.common_artist "未知艺术家"
        album := jsOrStr md.common_album "未知专辑"
        cover := extractCover urlOf md.common_picture
        lyrics := jsOrOpt lyricsFromLrcFile (extractLyrics md) }

/-! ## Association-list maps

`MetadataManager.cache` is a JavaScript `Map`; insertion order is
significant (`Map.set` overwrites in place, `forEach` iterates in insertion
order), so it is embedded as an association list with unique keys. -/

/-- `Map.get`: the value stored at `k`, if any. -/
def lookupKey {κ α : Type} [DecidableEq κ] : List (κ × α) → κ → Option α
  | [], _ => none
  | (k1, v1) :: rest, k => if k1 = k then some v1 else lookupKey rest k

/-- `Map.set`: overwrite in place if the key is present, else append. -/
def setKey {κ α : Type} [DecidableEq κ] : List (κ × α) → κ → α → List (κ × α)
  | [], k, v => [(k, v)]
  | (k1, v1) :: rest, k, v =>
      if k1 = k then (k, v) :: rest else (k1, v1) :: setKey rest k v

/-- `Map.delete`: drop the entry for `k`. -/
def eraseKey {κ α : Type} [DecidableEq κ] (l : List (κ × α)) (k : κ) : List (κ × α) :=
  l.filter (fun e => decide (e.1 ≠ k))

/-! ## MetadataManager state and flush scheduling

One `setTimeout` handle (`saveTimeout`) exists at a time; timers are made
explicit with absolute firing times, and delivered save notifications are
recorded as the list of times at which `onSaveNeeded` fired (the callback is
assumed installed, as `main.ts` does via `setSaveCallback`). -/

/-- The `setTimeout` delay used by `scheduleSave` (500 ms). -/
def saveDebounceMs : Nat := 500

/-- The settle delay used by the create/modify branch of `handleFileChange`
(500 ms). -/
def settleDelayMs : Nat := 500

/-- File-change event kinds delivered by the vault. -/
inductive ChangeKind where
  | create
  | delete
  | modify
deriving Repr, DecidableEq

/-- The observable state of a `MetadataManager`: the cache, the dirty flag,
the single pending save timer (absolute fire time), the pending deferred
re-extraction tasks queued by create/modify events, and the trace of save
notifications fired so far. -/
structure MState where
  cache : List (String × TrackMetadata)
  isDirty : Bool
  pendingSaveAt : Option Nat
  pendingExtractions : List (Nat × String)
  notifications : List Nat
deriving Repr, DecidableEq

/-- An idle manager state: empty cache, clean, no timers, nothing fired. -/
def initialMState : MState :=
  { cache := [], isDirty := false, pendingSaveAt := none
    pendingExtractions := [], notifications := [] }

/-- `MetadataManager.scheduleSave`: clear any pending save timer and start a
new one `saveDebounceMs` from now.  The timer body (executed later, at the
recorded time) is `fireSaveTimer`. -/
def scheduleSave (s : MState) (now : Nat) : MState :=
  { s with pendingSaveAt := some (now + saveDebounceMs) }

/-- The body of the `scheduleSave` timer: clear the dirty flag and notify the
plugin through `onSaveNeeded`. -/
def fireSaveTimer (s : MState) (t : Nat) : MState :=
  { s with pendingSaveAt := none, isDirty := false
           notifications := s.notifications ++ [t] }

/-- Let the pending save timer fire if its time has been reached by `now`;
otherwise nothing happens. -/
def fireIfDue (s : MState) (now : Nat) : MState :=
  match s.pendingSaveAt with
  | some T => if T ≤ now then fireSaveTimer s T else s
  | none => s

/-- Modelled from the spec: `isSupportedAudioFile` is declared in
`src/utils/helpers.ts`, which is not among the provided sources.  Spec
section 4.5 describes it as a supported-audio-suffix filter on the file
name; the suffix set itself is not enumerated by the spec, so a
representative set of audio suffixes is fixed here. -/
def isSupportedAudioFile (name : String) : Bool :=
  [".mp3", ".m4a", ".flac", ".wav", ".ogg", ".aac"].any
    (fun ext => jsEndsWith name ext)

/-- `filePath.split('/').pop() || ''` — the final path segment. -/
def basenameOf (filePath : String) : String :=
  ⟨lastSegmentAux filePath.data []⟩

/-- `MetadataManager.handleFileChange` at time `now`.  Non-audio paths return
before anything happens.  Otherwise the dirty flag is set; a delete removes
the cache entry and calls `scheduleSave`; a create/modify only queues a
deferred re-extraction `settleDelayMs` later (its completion is modelled by
`dirtyMark` below). -/
def handleFileChange (s : MState) (now : Nat) (filePath : String)
    (kind : ChangeKind) : MState :=
  if !isSupportedAudioFile (basenameOf filePath) then s
  else
    let s1 := { s with isDirty := true }
    match kind with
    | ChangeKind.delete =>
        scheduleSave { s1 with cache := eraseKey s1.cache filePath } now
    | ChangeKind.create =>
        { s1 with pendingExtractions :=
            s1.pendingExtractions ++ [(now + settleDelayMs, filePath)] }
    | ChangeKind.modify =>
        { s1 with pendingExtractions :=
            s1.pendingExtractions ++ [(now + settleDelayMs, filePath)] }

/-- `MetadataManager.getAllMetadata`: `new Map(this.cache)` — a fresh map
holding the cache's entries (entry-level value semantics; the reference-level
aliasing of the contained Records is modelled separately below). -/
def getAllMetadata (s : MState) : List (String × TrackMetadata) :=
  s.cache

/-- `MetadataManager.getCacheSize`. -/
def getCacheSize (s : MState) : Nat :=
  s.cache.length

/-- `MetadataManager.needsSave`: the dirty flag. -/
def needsSave (s : MState) : Bool :=
  s.isDirty

/-! ## Persistence: initializeFromSettings / exportToSettings

A persisted snapshot entry has the Record shape (spec section 6), so the
snapshot is a path-keyed association list of `TrackMetadata`. -/

/-- The per-record body of the `initializeFromSettings` loop: a cover that is
truthy and starts with `blob:` is nulled (it cannot survive a restart);
lyrics pass through `metadata.lyrics || null`; everything else verbatim. -/
def rehydrateRecord (m : TrackMetadata) : TrackMetadata :=
  let validCover : Option String :=
    match m.cover with
    | some c => if c ≠ "" ∧ jsStartsWith c "blob:" then none else some c
    | none => none
  { title := m.title
    artist := m.artist
    album := m.album
    cover := validCover
    lyrics := jsOrNull m.lyrics }

/-- `MetadataManager.initializeFromSettings`, restricted to the cache it
builds: the cache is cleared, then every persisted entry is rehydrated in
order (`settings.metadata` may be absent, yielding an empty cache).  The
progress counters and the `isInitialized` flag are bookkeeping no claim
touches. -/
def initializeFromSettings (settingsMetadata : Option (List (String × TrackMetadata))) :
    List (String × TrackMetadata) :=
  (settingsMetadata.getD []).map (fun e => (e.1, rehydrateRecord e.2))

/-- `MetadataManager.exportToSettings`: copy the cache, entry for entry and
in iteration order, into the settings object. -/
def exportToSettings (cache : List (String × TrackMetadata)) :
    List (String × TrackMetadata) :=
  cache

/-! ## Reconciliation: processFileIfNeeded / refreshAllMetadata -/

/-- The fields of a vault `TFile` that the manager reads. -/
structure TFileModel where
  path : String
  basename : String
deriving Repr, DecidableEq

/-- One record of the persisted `data.json` blob (`existingData.metadata`):
every field may be absent or empty, it is untrusted JSON. -/
structure ExistingRecord where
  title : Option String
  artist : Option String
  album : Option String
  cover : Option String
  lyrics : Option String
deriving Repr, DecidableEq

/-- JavaScript truthiness of a possibly absent string field. -/
def truthyO : Option String → Bool
  | some s => s ≠ ""
  | none => false

/-- The completeness test of `processFileIfNeeded`
(`existingMetadata.title && existingMetadata.artist`), under the name the
spec gives it: true unless both title and artist are present and non-empty. -/
def needsReExtraction (em : ExistingRecord) : Bool :=
  !(truthyO em.title ∧ truthyO em.artist)

/-- The record built by the reuse branch of `processFileIfNeeded`: title and
artist as persisted (both truthy on this branch), album and cover and lyrics
through `|| ...` fallbacks. -/
def reuseRecord (em : ExistingRecord) : TrackMetadata :=
  { title := em.title.getD ""
    artist := em.artist.getD ""
    album := jsOrStr em.album "未知专辑"
    cover := jsOrNull em.cover
    lyrics := jsOrNull em.lyrics }

/-- The per-file environment of one extraction: whether `vault.readBinary`
succeeds, the decode outcome of the bytes, and the content of the sidecar
`.lrc` file if it exists and could be read (the source's try/catch collapses
a missing file and a failed read into the same fallback). -/
structure FileEnv where
  readOk : Bool
  decode : Except Unit AudioMetadata
  lrcContent : Option String

/-- The sidecar filtering in `extractFileMetadata`: LRC content is used only
when truthy with a truthy trim, otherwise it becomes undefined. -/
def sidecarOf : Option String → Option String
  | some c => if jsTrim c = "" then none else some c
  | none => none

/-- `MetadataManager.extractFileMetadata`: read the bytes (a read failure
propagates to the caller), read and filter the sidecar lyrics, then run the
parser.  The parser itself never fails. -/
def extractFileMetadata (urlOf : Picture → String) (env : FileEnv) :
    Except Unit TrackMetadata :=
  if env.readOk then
    Except.ok (extractMetadata urlOf env.decode (sidecarOf env.lrcContent))
  else Except.error ()

/-- The catch-branch record of `processFileIfNeeded`: the file's basename as
title and the inline placeholder strings for the rest. -/
def catchFallback (file : TFileModel) : TrackMetadata :=
  { title := file.basename
    artist := "未知艺术家"
    album := "未知专辑"
    cover := none
    lyrics := none }

/-- The extract-or-catch part of `processFileIfNeeded`: a successful
extraction is stored as is, a failure degrades to `catchFallback`. -/
def extractResult (urlOf : Picture → String) (file : TFileModel) (env : FileEnv) :
    TrackMetadata :=
  match extractFileMetadata urlOf env with
  | Except.ok m => m
  | Except.error _ => catchFallback file

/-- `MetadataManager.processFileIfNeeded`: if `data.json` already holds a
record for the path whose title and artist are both truthy, reuse it;
otherwise re-extract (degrading to `catchFallback` on failure).  Either way
the path is written to the cache. -/
def processFileIfNeeded (urlOf : Picture → String) (file : TFileModel)
    (existing : List (String × ExistingRecord)) (env : FileEnv)
    (cache : List (String × TrackMetadata)) : List (String × TrackMetadata) :=
  match lookupKey existing file.path with
  | some em =>
      if truthyO em.title ∧ truthyO em.artist then
        setKey cache file.path (reuseRecord em)
      else setKey cache file.path (extractResult urlOf file env)
  | none => setKey cache file.path (extractResult urlOf file env)

/-- The record `processFileIfNeeded` ends up storing for a file. -/
def processedRecord (urlOf : Picture → String) (existing : List (String × ExistingRecord))
    (env : FileEnv) (file : TFileModel) : TrackMetadata :=
  match lookupKey existing file.path with
  | some em =>
      if truthyO em.title ∧ truthyO em.artist then reuseRecord em
      else extractResult urlOf file env
  | none => extractResult urlOf file env

/-- `MetadataManager.refreshAllMetadata` on a non-empty folder list: mark
dirty, process every discovered music file (the batch settles regardless of
individual outcomes; concurrent tasks touch disjoint keys, so the batch is a
fold), then `scheduleSave`.  File enumeration and the folder/suffix filter
are vault environment, so the already-filtered `musicFiles` list is the
input; `existing` is the parsed `data.json` (empty on any load failure). -/
def refreshAllMetadata (urlOf : Picture → String) (musicFiles : List TFileModel)
    (existing : List (String × ExistingRecord)) (envOf : String → FileEnv)
    (s : MState) (now : Nat) : MState :=
  let s1 := { s with isDirty := true }
  let cache1 := musicFiles.foldl
    (fun c f => processFileIfNeeded urlOf f existing (envOf f.path) c) s1.cache
  scheduleSave { s1 with cache := cache1 } now

/-! ## Reference-level model of the cache for aliasing claims

`new Map(this.cache)` copies the map structure but shares the
`TrackMetadata` objects.  To express that sharing, Records live in a heap
addressed by references, and the cache maps paths to references. -/

/-- A heap of `TrackMetadata` objects addressed by numeric references. -/
def heapGet (h : List (Nat × TrackMetadata)) (r : Nat) : Option TrackMetadata :=
  lookupKey h r

/-- In-place mutation of the object behind reference `r`
(e.g. `record.title = ...` through any alias). -/
def heapSet (h : List (Nat × TrackMetadata)) (r : Nat) (m : TrackMetadata) :
    List (Nat × TrackMetadata) :=
  setKey h r m

/-- The manager's cache at reference level: path to Record reference. -/
structure RefMgrState where
  cache : List (String × Nat)
deriving Repr, DecidableEq

/-- `getAllMetadata` at reference level: `new Map(this.cache)` is a fresh
map whose entries are the same (path, Record-reference) pairs — the Records
themselves are shared, not copied. -/
def getAllMetadataRefs (s : RefMgrState) : List (String × Nat) :=
  s.cache

/-- What a reader of a (path → reference) map observes for `p` given heap
`h`. -/
def readRecord (h : List (Nat × TrackMetadata)) (entries : List (String × Nat))
    (p : String) : Option TrackMetadata :=
  match lookupKey entries p with
  | some r => heapGet h r
  | none => none

/-! ## The debounce burst machine for temporal claims

A burst of modify events: each event's deferred extraction completes at some
time `t`, writes the new record, and calls `scheduleSave t` (the dirty flag
was already set at event arrival; completions keep it set).  Between
completions the pending timer fires if its time has come. -/

/-- One completed modify re-extraction: store the record, mark dirty,
debounce-schedule the save. -/
def dirtyMark (s : MState) (t : Nat) (p : String) (m : TrackMetadata) : MState :=
  scheduleSave { s with cache := setKey s.cache p m, isDirty := true } t

/-- Run a time-ordered burst of completed modify events, letting the save
timer fire between events whenever it is due. -/
def runBurst : MState → List (Nat × String × TrackMetadata) → MState
  | s, [] => s
  | s, (t, p, m) :: rest => runBurst (dirtyMark (fireIfDue s t) t p m) rest

/-- After the burst, time passes with no further dirty marks: the pending
timer, if any, fires at its scheduled time. -/
def settleAll (s : MState) : MState :=
  match s.pendingSaveAt with
  | some T => fireSaveTimer s T
  | none => s

/-- The record stored for `p` by the last burst event naming `p`, if any. -/
def lookupLastEvent : List (Nat × String × TrackMetadata) → String → Option TrackMetadata
  | [], _ => none
  | (_, q, m) :: rest, p =>
      match lookupLastEvent rest p with
      | some m2 => some m2
      | none => if q = p then some m else none

/-- The lyrics field of an extraction outcome (`none` when the extraction
itself failed, `some` of the record's lyrics otherwise). -/
def resolvedLyrics (r : Except Unit TrackMetadata) : Option (Option String) :=
  match r with
  | Except.ok m => some m.lyrics
  | Except.error _ => none

/-! ## Concrete sample data used by witnesses and counterexamples -/

/-- A sample cached Record. -/
def sampleTrack : TrackMetadata :=
  { title := "Song", artist := "Artist", album := "Album"
    cover := none, lyrics := some "la" }

/-- A second sample Record. -/
def sampleTrack2 : TrackMetadata :=
  { title := "Other", artist := "Artist2", album := "Album2"
    cover := none, lyrics := none }

/-- A stand-in for `URL.createObjectURL`. -/
def sampleUrlOf : Picture → String := fun _ => "blob:cover"

/-- A decoded tag set with every container absent. -/
def emptyAudioMetadata : AudioMetadata :=
  { common_title := none, common_artist := none, common_album := none
    common_lyrics := none, common_picture := none
    native_id3v2 := none, native_vorbis := none, native_apev2 := none
    native_iTunes := none, native_mp4 := none, native_asf := none }

/-- A file environment whose decode fails (content irrelevant otherwise). -/
def sampleEnv : FileEnv :=
  { readOk := true, decode := Except.error (), lrcContent := none }

/-- A manager state holding one cached audio Record, no pending timer, no
notification fired. -/
def c1State : MState :=
  { cache := [("song.mp3", sampleTrack)], isDirty := false
    pendingSaveAt := none, pendingExtractions := [], notifications := [] }

/-- A malformed buffer together with a non-blank sidecar lyrics text. -/
def c3FailEnv : FileEnv :=
  { readOk := true, decode := Except.error (), lrcContent := some "hello sidecar" }

/-- A snapshot whose single Record has empty-string lyrics and no transient
cover handle. -/
def c4Snapshot : List (String × TrackMetadata) :=
  [("a.mp3", { title := "t", artist := "ar", album := "al"
               cover := none, lyrics := some "" })]

/-- The spec's example persisted record: empty title, non-empty artist. -/
def c5Example : ExistingRecord :=
  { title := some "", artist := some "A", album := some "B"
    cover := none, lyrics := none }

/-- A file whose persisted record is `c5Example`. -/
def c5File : TFileModel := { path := "Music/a.mp3", basename := "a" }

/-- A decoded tag set whose only lyrics-bearing tag is an ID3v2 TXXX frame
with description "Lyrics-XXX" and text "line1\nline2". -/
def c6Metadata : AudioMetadata :=
  { common_title := none, common_artist := none, common_album := none
    common_lyrics := none, common_picture := none
    native_id3v2 := some [NativeTag.mk "TXXX"
        (TagValue.obj (some (TagValue.str "line1\nline2")) none none
          (some "Lyrics-XXX"))]
    native_vorbis := none, native_apev2 := none, native_iTunes := none
    native_mp4 := none, native_asf := none }

/-- A music file in the refresh batch. -/
def c7File : TFileModel := { path := "Music/song.mp3", basename := "song" }

/-- A per-file environment where reading the file's bytes fails. -/
def c7EnvOf : String → FileEnv :=
  fun _ => { readOk := false, decode := Except.error (), lrcContent := none }

/-- A two-event modify burst on distinct paths, 100 ms apart (inside the
500 ms debounce window). -/
def c8Events : List (Nat × String × TrackMetadata) :=
  [(0, "a.mp3", sampleTrack), (100, "b.mp3", sampleTrack2)]

/-- A heap with a single Record object at reference 0. -/
def c9Heap : List (Nat × TrackMetadata) := [(0, sampleTrack)]

/-- A reference-level cache mapping one path to that Record object. -/
def c9Mgr : RefMgrState := { cache := [("a.mp3", 0)] }

/-- The Record after a field mutation performed by a consumer. -/
def c9Mutated : TrackMetadata := { sampleTrack with title := "mutated" }

/-! ## Association-list lemmas -/

theorem lookupKey_setKey_self {κ α : Type} [DecidableEq κ]
    (l : List (κ × α)) (k : κ) (v : α) :
    lookupKey (setKey l k v) k = some v := by
  induction l with
  | nil => simp [setKey, lookupKey]
  | cons e rest ih =>
      obtain ⟨k1, v1⟩ := e
      by_cases h : k1 = k
      · simp [setKey, h, lookupKey]
      · simp [setKey, h, lookupKey, ih]

theorem lookupKey_setKey_ne {κ α : Type} [DecidableEq κ]
    (l : List (κ × α)) (k k' : κ) (v : α) (h : k ≠ k') :
    lookupKey (setKey l k v) k' = lookupKey l k' := by
  induction l with
  | nil => simp [setKey, lookupKey, h]
  | cons e rest ih =>
      obtain ⟨k1, v1⟩ := e
      by_cases h1 : k1 = k
      · subst h1
        simp [setKey, lookupKey, h]
      · simp [setKey, h1, lookupKey, ih]

theorem lookupKey_eraseKey_self {κ α : Type} [DecidableEq κ]
    (l : List (κ × α)) (k : κ) :
    lookupKey (eraseKey l k) k = none := by
  induction l with
  | nil => rfl
  | cons e rest ih =>
      obtain ⟨k1, v1⟩ := e
      by_cases h : k1 = k
      · simpa [eraseKey, h] using ih
      · simpa [eraseKey, h, lookupKey] using ih

/-! ## Fold lemmas for the refresh batch -/

theorem lookupKey_foldl_setKey_not_mem (rec : TFileModel → TrackMetadata) :
    ∀ (files : List TFileModel) (c : List (String × TrackMetadata)) (p : String),
      p ∉ files.map TFileModel.path →
      lookupKey (files.foldl (fun c2 g => setKey c2 g.path (rec g)) c) p = lookupKey c p := by
  intro files
  induction files with
  | nil => intro c p _; rfl
  | cons g rest ih =>
      intro c p hp
      simp only [List.map_cons, List.mem_cons, not_or] at hp
      obtain ⟨hpg, hprest⟩ := hp
      simp only [List.foldl_cons]
      rw [ih _ p hprest, lookupKey_setKey_ne _ _ _ _ (fun hgp => hpg hgp.symm)]

theorem lookupKey_foldl_setKey_mem (rec : TFileModel → TrackMetadata) :
    ∀ (files : List TFileModel) (c : List (String × TrackMetadata)) (f : TFileModel),
      f ∈ files → (files.map TFileModel.path).Nodup →
      lookupKey (files.foldl (fun c2 g => setKey c2 g.path (rec g)) c) f.path = some (rec f) := by
  intro files
  induction files with
  | nil => intro c f hf; cases hf
  | cons g rest ih =>
      intro c f hf hnd
      simp only [List.map_cons, List.nodup_cons] at hnd
      obtain ⟨hgp, hnd2⟩ := hnd
      simp only [List.foldl_cons]
      rcases List.mem_cons.mp hf with hfg | hfr
      · subst hfg
        rw [lookupKey_foldl_setKey_not_mem rec rest _ f.path hgp,
          lookupKey_setKey_self]
      · exact ih _ f hfr hnd2

/-! ## Burst-run lemmas -/

theorem lookupLastEvent_not_mem :
    ∀ (events : List (Nat × String × TrackMetadata)) (p : String),
      p ∉ events.map (fun x => x.2.1) →
      lookupLastEvent events p = none := by
  intro events
  induction events with
  | nil => intro p _; rfl
  | cons x rest ih =>
      intro p hp
      obtain ⟨t, q, m⟩ := x
      simp only [List.map_cons, List.mem_cons, not_or] at hp
      obtain ⟨hpq, hprest⟩ := hp
      simp only [lookupLastEvent, ih p hprest]
      exact if_neg (fun h => hpq h.symm)

theorem lookupLastEvent_of_mem :
    ∀ (events : List (Nat × String × TrackMetadata)) (e : Nat × String × TrackMetadata),
      e ∈ events → (events.map (fun x => x.2.1)).Nodup →
      lookupLastEvent events e.2.1 = some e.2.2 := by
  intro events
  induction events with
  | nil => intro e he; cases he
  | cons x rest ih =>
      intro e he hnd
      simp only [List.map_cons, List.nodup_cons] at hnd
      obtain ⟨hxq, hnd2⟩ := hnd
      rcases List.mem_cons.mp he with hex | her
      · subst hex
        obtain ⟨t, q, m⟩ := e
        simp only [lookupLastEvent, lookupLastEvent_not_mem rest q hxq]
        simp
      · obtain ⟨t, q, m⟩ := x
        simp only [lookupLastEvent, ih e her hnd2]

theorem runBurst_spec :
    ∀ (events : List (Nat × String × TrackMetadata)) (s : MState),
      List.Chain' (fun a b => a.1 ≤ b.1 ∧ b.1 < a.1 + saveDebounceMs) events →
      (∀ T, s.pendingSaveAt = some T → ∀ e, events.head? = some e → e.1 < T) →
      (runBurst s events).notifications = s.notifications
      ∧ (runBurst s events).pendingSaveAt =
          (match events.getLast? with
           | some e => some (e.1 + saveDebounceMs)
           | none => s.pendingSaveAt)
      ∧ (∀ p, lookupKey (runBurst s events).cache p =
          (match lookupLastEvent events p with
           | some m => some m
           | none => lookupKey s.cache p)) := by
  intro events
  induction events with
  | nil =>
      intro s _ _
      refine ⟨rfl, rfl, ?_⟩
      intro p
      rfl
  | cons x rest ih =>
      intro s hchain hpend
      obtain ⟨t, p0, m0⟩ := x
      have hfire : fireIfDue s t = s := by
        unfold fireIfDue
        cases hps : s.pendingSaveAt with
        | none => rfl
        | some T =>
            have hlt : t < T := hpend T hps (t, p0, m0) rfl
            simp [Nat.not_le.mpr hlt]
      have hstep : runBurst s ((t, p0, m0) :: rest)
          = runBurst (dirtyMark s t p0 m0) rest := by
        simp [runBurst, hfire]
      have hchain2 : List.Chain' (fun a b => a.1 ≤ b.1 ∧ b.1 < a.1 + saveDebounceMs) rest :=
        hchain.tail
      have hpend2 : ∀ T, (dirtyMark s t p0 m0).pendingSaveAt = some T →
          ∀ e, rest.head? = some e → e.1 < T := by
        intro T hT e he
        cases rest with
        | nil => cases he
        | cons y rest2 =>
            have hrel := (List.chain'_cons.mp hchain).1
            cases he
            have : T = t + saveDebounceMs := by
              simpa [dirtyMark, scheduleSave] using hT.symm
            subst this
            exact hrel.2
      obtain ⟨hn, hp, hc⟩ := ih (dirtyMark s t p0 m0) hchain2 hpend2
      rw [hstep]
      refine ⟨?_, ?_, ?_⟩
      · rw [hn]
        rfl
      · rw [hp]
        cases rest with
        | nil => rfl
        | cons y rest2 =>
            cases hgl : (y :: rest2).getLast? with
            | none =>
                rw [List.getLast?_eq_none_iff] at hgl
                cases hgl
            | some e0 =>
                rw [List.getLast?_cons_cons, hgl]
      · intro p
        rw [hc p]
        cases hle : lookupLastEvent rest p with
        | some m2 => simp [lookupLastEvent, hle]
        | none =>
            simp only [lookupLastEvent, hle]
            by_cases hpp : p0 = p
            · subst hpp
              simp [dirtyMark, scheduleSave, lookupKey_setKey_self]
            · simp [hpp, dirtyMark, scheduleSave, lookupKey_setKey_ne _ _ _ _ hpp]

/-! ## Per-record persistence lemma -/

theorem rehydrateRecord_fields (m : TrackMetadata) :
    rehydrateRecord m =
      { title := m.title, artist := m.artist, album := m.album
        cover := match m.cover with
                 | some c => if jsStartsWith c "blob:" then none else some c
                 | none => none
        lyrics := match m.lyrics with
                  | some s => if s = "" then none else some s
                  | none => none } := by
  unfold rehydrateRecord jsOrNull
  cases hc : m.cover with
  | none => rfl
  | some c =>
      by_cases hce : c = ""
      · subst hce
        simp
        decide
      · simp [hce]

/-- `processFileIfNeeded` always stores exactly `processedRecord` at the
file's path. -/
theorem processFileIfNeeded_eq_setKey (urlOf : Picture → String) (file : TFileModel)
    (existing : List (String × ExistingRecord)) (env : FileEnv)
    (cache : List (String × TrackMetadata)) :
    processFileIfNeeded urlOf file existing env cache
      = setKey cache file.path (processedRecord urlOf existing env file) := by
  unfold processFileIfNeeded processedRecord
  cases lookupKey existing file.path with
  | none => rfl
  | some em =>
      by_cases h : truthyO em.title ∧ truthyO em.artist
      · simp [h]
      · simp [h]

/-! ## Claim theorems -/

/-- C2: for every byte buffer on which audio decoding fails (`mm.parseBuffer`
throws, i.e. the decode outcome is an error), `extractMetadata` returns the
fixed default placeholder Record and raises nothing to the caller — the
embedding is a total function whose error branch is exactly
`DEFAULT_METADATA`, for any caller-supplied sidecar lyrics and any URL
allocator; the error is only logged. -/
theorem extractMetadata_decode_error_default :
    ∀ (urlOf : Picture → String) (lrc : Option String),
      extractMetadata urlOf (Except.error ()) lrc = DEFAULT_METADATA :=
  fun _ _ => rfl

/-- C5: the re-extraction decision is true unless both title and artist are
present and non-empty; it is the sole completeness test governing reuse
versus reparse in `processFileIfNeeded` (a persisted record is reused exactly
when it exists and `needsReExtraction` is false, and otherwise the file is
re-extracted); and the record `{title:"", artist:"A", album:"B"}` is judged
incomplete. -/
theorem needsReExtraction_sole_test :
    (∀ em : ExistingRecord,
        needsReExtraction em = !(truthyO em.title ∧ truthyO em.artist))
    ∧ (∀ (urlOf : Picture → String) (file : TFileModel)
        (existing : List (String × ExistingRecord)) (env : FileEnv)
        (cache : List (String × TrackMetadata)) (em : ExistingRecord),
        lookupKey existing file.path = some em →
        processFileIfNeeded urlOf file existing env cache =
          (if needsReExtraction em
           then setKey cache file.path (extractResult urlOf file env)
           else setKey cache file.path (reuseRecord em)))
    ∧ (∀ (urlOf : Picture → String) (file : TFileModel)
        (existing : List (String × ExistingRecord)) (env : FileEnv)
        (cache : List (String × TrackMetadata)),
        lookupKey existing file.path = none →
        processFileIfNeeded urlOf file existing env cache
          = setKey cache file.path (extractResult urlOf file env))
    ∧ needsReExtraction c5Example = true := by
  refine ⟨fun em => rfl, ?_, ?_, by decide⟩
  · intro urlOf file existing env cache em hlk
    unfold processFileIfNeeded needsReExtraction
    rw [hlk]
    by_cases h : truthyO em.title = true ∧ truthyO em.artist = true
    · simp [h]
    · simp [h]
  · intro urlOf file existing env cache hlk
    unfold processFileIfNeeded
    rw [hlk]

/-- Witness for C5: at the spec's own example (`c5Example` persisted for
`c5File`), the hypothesis of the reuse-versus-reparse characterization is
discharged concretely. -/
theorem needsReExtraction_sole_test_witness :
    processFileIfNeeded sampleUrlOf c5File [(c5File.path, c5Example)] sampleEnv []
      = (if needsReExtraction c5Example
         then setKey [] c5File.path (extractResult sampleUrlOf c5File sampleEnv)
         else setKey [] c5File.path (reuseRecord c5Example)) :=
  needsReExtraction_sole_test.2.1 sampleUrlOf c5File
    [(c5File.path, c5Example)] sampleEnv [] c5Example (by decide)

/-- C6: the embedded-tag lyrics sources are tried in the order common lyrics
field, USLT, SYLT, TXXX, Vorbis, APEv2, iTunes/MP4, ASF (first truthy result
wins); the TXXX frame is selected exactly when its description contains
"lyric" case-insensitively; and on a tag set whose only lyrics-bearing tag is
a TXXX frame with description "Lyrics-XXX" and text "line1\nline2", the
resolved lyrics are "line1\nline2". -/
theorem extractLyrics_order_and_txxx :
    (∀ md : AudioMetadata,
        extractLyrics md = firstSome [commonLyricsStep md, usltStep md,
          syltStep md, txxxStep md, vorbisStep md, apev2Step md,
          itunesStep md, asfStep md])
    ∧ (∀ (text descriptor : Option TagValue) (lyr : Option (List TagValue))
        (d : String),
        txxxDescrMatches (TagValue.obj text descriptor lyr (some d))
          = jsIncludes (jsToLower d) "lyric")
    ∧ extractLyrics c6Metadata = some "line1\nline2" := by
  refine ⟨?_, fun _ _ _ _ => rfl, by decide⟩
  intro md
  cases h1 : commonLyricsStep md <;>
    cases h2 : usltStep md <;>
    cases h3 : syltStep md <;>
    cases h4 : txxxStep md <;>
    cases h5 : vorbisStep md <;>
    cases h6 : apev2Step md <;>
    cases h7 : itunesStep md <;>
    cases h8 : asfStep md <;>
    simp [extractLyrics, firstSome, h1, h2, h3, h4, h5, h6, h7, h8]

/-- C10: a change event whose filename does not pass the supported-audio
suffix filter is a complete no-op for every event kind — the state (cache,
dirty flag, timers, deferred tasks, notification trace) is returned
unchanged. -/
theorem handleFileChange_nonaudio_noop :
    ∀ (s : MState) (now : Nat) (path : String) (kind : ChangeKind),
      isSupportedAudioFile (basenameOf path) = false →
      handleFileChange s now path kind = s := by
  intro s now path kind h
  simp [handleFileChange, h]

/-- Witness for C10: a concrete non-audio path under a concrete state. -/
theorem handleFileChange_nonaudio_noop_witness :
    handleFileChange c1State 7 "notes/readme.txt" ChangeKind.modify = c1State :=
  handleFileChange_nonaudio_noop c1State 7 "notes/readme.txt"
    ChangeKind.modify (by decide)

/-- Counterexample to C1 as stated: deleting a cached audio path does remove
it synchronously, but it does not trigger an immediate flush notification
bypassing the debounce timer — during the call no notification fires at all
(the trace stays empty) and instead the ordinary debounce timer is (re)set
for `saveDebounceMs` later, through the same `scheduleSave` as every other
mutation. -/
theorem handleFileChange_delete_not_immediate :
    lookupKey (getAllMetadata c1State) "song.mp3" = some sampleTrack
    ∧ (handleFileChange c1State 0 "song.mp3" ChangeKind.delete).notifications
        = c1State.notifications
    ∧ (handleFileChange c1State 0 "song.mp3" ChangeKind.delete).pendingSaveAt
        = some saveDebounceMs := by
  decide

/-- C1 (amended): for every audio path, `handleFileChange(path, delete)`
removes the path's Record from `getAllMetadata()` synchronously, marks the
store dirty, and calls the debounced `scheduleSave` — cancelling any pending
timer and arming a new one for `saveDebounceMs` later; the flush notification
is delivered only when that timer later fires, not during the call. -/
theorem handleFileChange_delete_debounced :
    ∀ (s : MState) (now : Nat) (path : String),
      isSupportedAudioFile (basenameOf path) = true →
      lookupKey (getAllMetadata (handleFileChange s now path ChangeKind.delete)) path = none
      ∧ (handleFileChange s now path ChangeKind.delete).notifications
          = s.notifications
      ∧ (handleFileChange s now path ChangeKind.delete).pendingSaveAt
          = some (now + saveDebounceMs)
      ∧ (handleFileChange s now path ChangeKind.delete).isDirty = true := by
  intro s now path h
  refine ⟨?_, ?_, ?_, ?_⟩ <;>
    simp [handleFileChange, h, getAllMetadata, scheduleSave, lookupKey_eraseKey_self]

/-- Witness for C1 (amended) at a concrete state, time and path. -/
theorem handleFileChange_delete_debounced_witness :
    lookupKey (getAllMetadata (handleFileChange c1State 5 "song.mp3" ChangeKind.delete)) "song.mp3" = none
    ∧ (handleFileChange c1State 5 "song.mp3" ChangeKind.delete).notifications
        = c1State.notifications
    ∧ (handleFileChange c1State 5 "song.mp3" ChangeKind.delete).pendingSaveAt
        = some (5 + saveDebounceMs)
    ∧ (handleFileChange c1State 5 "song.mp3" ChangeKind.delete).isDirty = true :=
  handleFileChange_delete_debounced c1State 5 "song.mp3" (by decide)

/-- Counterexample to C3 as stated: an input carrying a present, non-blank
sidecar lyrics text whose resolved lyrics are not the sidecar text — when
decoding the buffer fails, the catch branch returns `DEFAULT_METADATA`
(lyrics null) regardless of the sidecar. -/
theorem sidecar_lost_on_decode_error :
    c3FailEnv.lrcContent = some "hello sidecar"
    ∧ jsTrim "hello sidecar" ≠ ""
    ∧ resolvedLyrics (extractFileMetadata sampleUrlOf c3FailEnv)
        ≠ some (some "hello sidecar") := by
  decide

/-- C3 (amended): for every input whose audio decoding succeeds, a present
and non-blank sidecar lyrics text is used unconditionally as the resolved
lyrics (verbatim, for any embedded tags, skipping steps 2–8), and an absent
or blank sidecar falls through to the embedded-tag chain; on a decode
failure the placeholder Record (lyrics null) is returned irrespective of the
sidecar. -/
theorem extractFileMetadata_sidecar_precedence :
    (∀ (urlOf : Picture → String) (md : AudioMetadata) (s : String),
        jsTrim s ≠ "" →
        resolvedLyrics (extractFileMetadata urlOf ⟨true, Except.ok md, some s⟩)
          = some (some s))
    ∧ (∀ (urlOf : Picture → String) (md : AudioMetadata) (s : String),
        jsTrim s = "" →
        resolvedLyrics (extractFileMetadata urlOf ⟨true, Except.ok md, some s⟩)
          = some (extractLyrics md))
    ∧ (∀ (urlOf : Picture → String) (md : AudioMetadata),
        resolvedLyrics (extractFileMetadata urlOf ⟨true, Except.ok md, none⟩)
          = some (extractLyrics md)) := by
  refine ⟨?_, ?_, ?_⟩
  · intro urlOf md s hs
    have hne : s ≠ "" := by
      intro h0
      subst h0
      exact hs rfl
    simp [extractFileMetadata, extractMetadata, resolvedLyrics, sidecarOf,
      jsOrOpt, hs, hne]
  · intro urlOf md s hs
    simp [extractFileMetadata, extractMetadata, resolvedLyrics, sidecarOf,
      jsOrOpt, hs]
  · intro urlOf md
    simp [extractFileMetadata, extractMetadata, resolvedLyrics, sidecarOf,
      jsOrOpt]

/-- Witness for C3 (amended): a concrete non-blank sidecar wins over the
(empty) embedded tags. -/
theorem extractFileMetadata_sidecar_precedence_witness :
    resolvedLyrics
        (extractFileMetadata sampleUrlOf ⟨true, Except.ok emptyAudioMetadata, some "la la"⟩)
      = some (some "la la") :=
  extractFileMetadata_sidecar_precedence.1 sampleUrlOf emptyAudioMetadata
    "la la" (by decide)

/-- Counterexample to C4 as stated: a snapshot whose single Record has no
transient-handle cover but empty-string lyrics does not round-trip
field-for-field — the empty lyrics come back as null. -/
theorem roundtrip_empty_lyrics_nulled :
    exportToSettings (initializeFromSettings (some c4Snapshot)) ≠ c4Snapshot
    ∧ exportToSettings (initializeFromSettings (some c4Snapshot))
        = [("a.mp3", { title := "t", artist := "ar", album := "al"
                       cover := none, lyrics := none })] := by
  decide

/-- C4 (amended): `exportSnapshot(initializeFromPersisted(S))` equals `S`
field-for-field except that a cover recognized as a transient resource
handle (`blob:` prefix) becomes null and an empty-string lyrics value
becomes null (`lyrics || null`); title, artist, album and all other cover
and lyrics values are restored verbatim, in order. -/
theorem export_initialize_roundtrip :
    ∀ S : List (String × TrackMetadata),
      exportToSettings (initializeFromSettings (some S)) =
        S.map (fun e => (e.1,
          { title := e.2.title, artist := e.2.artist, album := e.2.album
            cover := match e.2.cover with
                     | some c => if jsStartsWith c "blob:" then none else some c
                     | none => none
            lyrics := match e.2.lyrics with
                      | some s => if s = "" then none else some s
                      | none => none })) := by
  intro S
  have h1 : exportToSettings (initializeFromSettings (some S))
      = S.map (fun e => (e.1, rehydrateRecord e.2)) := rfl
  rw [h1]
  exact List.map_congr_left (fun e _ => by rw [rehydrateRecord_fields])

/-- Counterexample to C7 as stated: a batch file whose read fails is stored
as the catch-branch record titled by its basename — not as the fixed default
placeholder Record. -/
theorem refreshAll_read_failure_not_placeholder :
    lookupKey (refreshAllMetadata sampleUrlOf [c7File] [] c7EnvOf initialMState 0).cache
        "Music/song.mp3" = some (catchFallback c7File)
    ∧ catchFallback c7File ≠ DEFAULT_METADATA := by
  decide

/-- C7 (amended): in a full refresh over files with distinct paths, every
file — failing or not — ends up with a Record in the store (never omitted,
never aborting the batch): with no reusable persisted record, a read failure
degrades the file to the catch-branch record (title = basename, placeholder
artist/album), and a decode failure degrades it to the fixed default
placeholder Record; `refreshAllMetadata` is total, fires no notification
itself, and schedules one debounced flush for the whole batch — no
partial-failure error is surfaced. -/
theorem refreshAll_failures_degrade :
    ∀ (urlOf : Picture → String) (files : List TFileModel)
      (existing : List (String × ExistingRecord)) (envOf : String → FileEnv)
      (s : MState) (now : Nat) (f : TFileModel),
      f ∈ files → (files.map TFileModel.path).Nodup →
      lookupKey (refreshAllMetadata urlOf files existing envOf s now).cache f.path
          = some (processedRecord urlOf existing (envOf f.path) f)
      ∧ ((envOf f.path).readOk = false → lookupKey existing f.path = none →
          processedRecord urlOf existing (envOf f.path) f = catchFallback f)
      ∧ ((envOf f.path).readOk = true → (envOf f.path).decode = Except.error () →
          lookupKey existing f.path = none →
          processedRecord urlOf existing (envOf f.path) f = DEFAULT_METADATA)
      ∧ (refreshAllMetadata urlOf files existing envOf s now).notifications
          = s.notifications
      ∧ (refreshAllMetadata urlOf files existing envOf s now).pendingSaveAt
          = some (now + saveDebounceMs) := by
  intro urlOf files existing envOf s now f hf hnodup
  have hfun : (fun (c : List (String × TrackMetadata)) (g : TFileModel) =>
        processFileIfNeeded urlOf g existing (envOf g.path) c)
      = (fun c g => setKey c g.path (processedRecord urlOf existing (envOf g.path) g)) := by
    funext c g
    exact processFileIfNeeded_eq_setKey urlOf g existing (envOf g.path) c
  have hcache : (refreshAllMetadata urlOf files existing envOf s now).cache
      = files.foldl
          (fun c g => setKey c g.path (processedRecord urlOf existing (envOf g.path) g))
          s.cache := by
    show files.foldl
        (fun c g => processFileIfNeeded urlOf g existing (envOf g.path) c) s.cache = _
    rw [hfun]
  refine ⟨?_, ?_, ?_, rfl, rfl⟩
  · rw [hcache]
    exact lookupKey_foldl_setKey_mem
      (fun g => processedRecord urlOf existing (envOf g.path) g) files s.cache f hf hnodup
  · intro hro hnone
    simp [processedRecord, hnone, extractResult, extractFileMetadata, hro]
  · intro hro hdec hnone
    simp [processedRecord, hnone, extractResult, extractFileMetadata, hro, hdec,
      extractMetadata]

/-- Witness for C7 (amended): the single-file batch whose read fails. -/
theorem refreshAll_failures_degrade_witness :
    lookupKey (refreshAllMetadata sampleUrlOf [c7File] [] c7EnvOf initialMState 3).cache
        c7File.path
      = some (processedRecord sampleUrlOf [] (c7EnvOf c7File.path) c7File) :=
  (refreshAll_failures_degrade sampleUrlOf [c7File] [] c7EnvOf initialMState 3
    c7File (by decide) (by decide)).1

/-- C8: `scheduleSave` always cancels and replaces the single pending timer
(the new timer is armed `saveDebounceMs` from the call, whatever was
pending); and for a burst of N modify completions on N distinct paths, each
arriving within the debounce window of its predecessor, exactly one flush
notification is delivered — at the last completion time plus the debounce
delay, after the quiet period — and the flushed cache covers the union of
all N changes.  At most one notification is ever queued, since the one
`saveTimeout` handle is cleared before every re-arm. -/
theorem scheduleSave_burst_single_flush :
    ∀ (events : List (Nat × String × TrackMetadata)),
      events ≠ [] →
      List.Chain' (fun a b => a.1 ≤ b.1 ∧ b.1 < a.1 + saveDebounceMs) events →
      (events.map (fun e => e.2.1)).Nodup →
      (∀ (s : MState) (now : Nat),
          (scheduleSave s now).pendingSaveAt = some (now + saveDebounceMs))
      ∧ (∀ e0, events.getLast? = some e0 →
          (settleAll (runBurst initialMState events)).notifications
            = [e0.1 + saveDebounceMs])
      ∧ (∀ e ∈ events,
          lookupKey (settleAll (runBurst initialMState events)).cache e.2.1
            = some e.2.2) := by
  intro events hne hchain hnodup
  have hpend0 : ∀ T, initialMState.pendingSaveAt = some T →
      ∀ e, events.head? = some e → e.1 < T := by
    intro T hT
    simp [initialMState] at hT
  obtain ⟨hn, hp, hc⟩ := runBurst_spec events initialMState hchain hpend0
  have hsc : (settleAll (runBurst initialMState events)).cache
      = (runBurst initialMState events).cache := by
    unfold settleAll
    cases (runBurst initialMState events).pendingSaveAt <;> rfl
  refine ⟨fun s now => rfl, ?_, ?_⟩
  · intro e0 he0
    rw [he0] at hp
    have hp2 : (runBurst initialMState events).pendingSaveAt
        = some (e0.1 + saveDebounceMs) := hp
    unfold settleAll
    rw [hp2]
    simp only [fireSaveTimer]
    rw [hn]
    rfl
  · intro e he
    rw [hsc, hc e.2.1, lookupLastEvent_of_mem events e he hnodup]

/-- Witness for C8: a concrete two-event burst (0 ms and 100 ms, distinct
paths) yields exactly one notification at 600 ms covering both changes. -/
theorem scheduleSave_burst_single_flush_witness :
    (settleAll (runBurst initialMState c8Events)).notifications
        = [100 + saveDebounceMs]
    ∧ lookupKey (settleAll (runBurst initialMState c8Events)).cache "a.mp3"
        = some sampleTrack
    ∧ lookupKey (settleAll (runBurst initialMState c8Events)).cache "b.mp3"
        = some sampleTrack2 := by
  have hchain : List.Chain' (fun a b => a.1 ≤ b.1 ∧ b.1 < a.1 + saveDebounceMs) c8Events := by
    refine List.chain'_cons.mpr ⟨⟨by norm_num, by norm_num [saveDebounceMs]⟩, ?_⟩
    exact List.chain'_singleton _
  have h := scheduleSave_burst_single_flush c8Events (by decide) hchain (by decide)
  refine ⟨?_, ?_, ?_⟩
  · exact h.2.1 (100, "b.mp3", sampleTrack2) (by decide)
  · exact h.2.2 (0, "a.mp3", sampleTrack) (by decide)
  · exact h.2.2 (100, "b.mp3", sampleTrack2) (by decide)

/-- Counterexample to C9 as stated: `new Map(this.cache)` is a shallow copy.
The returned structure holds the same Record reference (0) as the live
cache, so mutating that Record through the returned structure changes what
the live cache reads. -/
theorem getAllMetadata_shared_records :
    lookupKey (getAllMetadataRefs c9Mgr) "a.mp3" = some 0
    ∧ readRecord (heapSet c9Heap 0 c9Mutated) c9Mgr.cache "a.mp3"
        ≠ readRecord c9Heap c9Mgr.cache "a.mp3" := by
  decide

/-- C9 (amended): `getAllMetadata` returns a fresh map with the same
(path, Record-reference) entries as the live cache — entry-level operations
on the copy cannot touch the cache's own entry structure, but the Record
objects are shared, so a field mutation of a Record obtained from the copy
is observed identically through the live cache and through the copy. -/
theorem getAllMetadata_shallow_copy :
    (∀ s : RefMgrState, getAllMetadataRefs s = s.cache)
    ∧ (∀ (h : List (Nat × TrackMetadata)) (s : RefMgrState) (p : String)
        (r : Nat) (m : TrackMetadata),
        lookupKey (getAllMetadataRefs s) p = some r →
        readRecord (heapSet h r m) s.cache p = some m
        ∧ readRecord (heapSet h r m) (getAllMetadataRefs s) p = some m) := by
  refine ⟨fun s => rfl, ?_⟩
  intro h s p r m hlk
  have hmain : readRecord (heapSet h r m) s.cache p = some m := by
    unfold readRecord
    rw [show lookupKey s.cache p = some r from hlk]
    unfold heapGet heapSet
    exact lookupKey_setKey_self h r m
  exact ⟨hmain, hmain⟩

/-- Witness for C9 (amended): the concrete mutation through the copy is
visible through both views. -/
theorem getAllMetadata_shallow_copy_witness :
    readRecord (heapSet c9Heap 0 c9Mutated) c9Mgr.cache "a.mp3" = some c9Mutated
    ∧ readRecord (heapSet c9Heap 0 c9Mutated) (getAllMetadataRefs c9Mgr) "a.mp3"
        = some c9Mutated :=
  getAllMetadata_shallow_copy.2 c9Heap c9Mgr "a.mp3" 0 c9Mutated (by decide)

end AlbusMusic
